import Mathlib

/-!
Verification of the dPIN validator CLI core against its specification.

The development shallowly embeds the latency-measurement engine
(utils/network.js: getNetworkLatency, getDnsResolutionTime,
getTcpConnectionTime, performHeadRequest, measureLatency), the validator
session validate-message handler (src/connection.js), and the hub registry
handlers (hub signup / validate / close message handlers) as executable Lean
functions over explicit environment oracles.  Platform primitives (process
execution, sockets, DNS, HTTP transport, URL resolution, wall clocks) are
modelled as oracle inputs; everything downstream of those primitives is
translated from the JavaScript source.

JavaScript conventions used throughout the embedding:
  - a promise settles as either resolved or rejected: POutcome;
  - synchronous throw / try-catch is Except threaded explicitly;
  - null / undefined versus a value is Option;
  - numeric values (latencies, in ms) are rationals, since JS numbers carry
    fractional ping times such as 10.123;
  - JS truthiness on a nullable number (used by the source at several
    spots, notably the bestLatency selection) is truthyNum below: null and
    0 are falsy, every other number is truthy;
  - JS truthiness on a nullable string (the x || dflt idiom) is jsOrS:
    null / undefined and the empty string are falsy.
-/

namespace DPin

/-- Errors that travel through promise rejections and try/catch in the
modelled code. -/
inductive JsError where
  | tooManyRedirects
  | redirectLocationMissing
  | requestError
  | requestTimedOut
  | other (msg : String)
deriving DecidableEq, Repr

/-- Settled state of a JS promise: resolved with a value or rejected with
an error. -/
inductive POutcome (α : Type) where
  | resolved (val : α)
  | rejected (err : JsError)
deriving DecidableEq, Repr

/-- Whether a promise outcome is a rejection. -/
def isRejectedB {α : Type} : POutcome α → Bool
  | .resolved _ => false
  | .rejected _ => true

/-- JS truthiness test on a nullable number: null and 0 are falsy. -/
def truthyNum (v : Option ℚ) : Bool :=
  match v with
  | none => false
  | some q => decide (q ≠ 0)

/-- The JS idiom s || dflt on a nullable string: null, undefined and the
empty string fall back to the default. -/
def jsOrS (s : Option String) (dflt : String) : String :=
  match s with
  | none => dflt
  | some v => if v = "" then dflt else v

/-! ## Ping-output parsing (utils/network.js, getNetworkLatency)

The source extracts a round-trip time from the output of the system ping
command with a cascade of regular expressions.  The matchers below scan a
character list exactly as the JS regex engine does: try to match at every
position from the left, first match wins. -/

/-- Greedy whitespace skip, the regex fragment between tokens. -/
def skipWsL : List Char → List Char
  | [] => []
  | c :: r => if c.isWhitespace then skipWsL r else c :: r

/-- Greedy digit run; returns the digits and the remainder. -/
def takeDigitsL : List Char → List Char × List Char
  | [] => ([], [])
  | c :: r =>
    if c.isDigit then
      let p := takeDigitsL r
      (c :: p.1, p.2)
    else ([], c :: r)

/-- Match a literal character sequence, returning the remainder. -/
def expectLit : List Char → List Char → Option (List Char)
  | [], rest => some rest
  | _ :: _, [] => none
  | l :: ls, c :: r => if c = l then expectLit ls r else none

/-- Value of a digit run, as parseInt computes it. -/
def digitsToNat (ds : List Char) : ℕ :=
  ds.foldl (fun a c => a * 10 + (c.toNat - 48)) 0

/-- Value of an integer part plus an optional fractional digit run, the
exact rational parseFloat reads off a decimal numeral. -/
def decimalToRat (intDs : List Char) (fracDs : List Char) : ℚ :=
  mkRat (digitsToNat intDs * 10 ^ fracDs.length + digitsToNat fracDs)
    (10 ^ fracDs.length)

/-- Optional fractional part: a dot followed by at least one digit;
otherwise nothing is consumed. -/
def takeFracL (cs : List Char) : List Char × List Char :=
  match cs with
  | '.' :: r =>
    let p := takeDigitsL r
    if p.1 = [] then ([], cs) else (p.1, p.2)
  | _ => ([], cs)

/-- Matcher for the Windows average form at one position. -/
def matchAvgAt (cs : List Char) : Option ℚ :=
  match expectLit "Average".data cs with
  | none => none
  | some r1 =>
    match expectLit ['='] (skipWsL r1) with
    | none => none
    | some r2 =>
      let p := takeDigitsL (skipWsL r2)
      if p.1 = [] then none
      else
        match expectLit "ms".data p.2 with
        | none => none
        | some _ => some (digitsToNat p.1 : ℚ)

/-- Matcher for the alternative Windows time form at one position. -/
def matchTimeWinAt (cs : List Char) : Option ℚ :=
  match expectLit "time".data cs with
  | none => none
  | some r1 =>
    match r1 with
    | [] => none
    | c :: r2 =>
      if c = '=' ∨ c = '<' then
        let p := takeDigitsL r2
        if p.1 = [] then none
        else
          match expectLit "ms".data p.2 with
          | none => none
          | some _ => some (digitsToNat p.1 : ℚ)
      else none

/-- Matcher for the Unix time form at one position. -/
def matchTimeUnixAt (cs : List Char) : Option ℚ :=
  match expectLit "time=".data cs with
  | none => none
  | some r1 =>
    let p := takeDigitsL r1
    if p.1 = [] then none
    else
      let f := takeFracL p.2
      match expectLit "ms".data (skipWsL f.2) with
      | none => none
      | some _ => some (decimalToRat p.1 f.1)

/-- Matcher for the generic fallback form at one position. -/
def matchGenericAt (cs : List Char) : Option ℚ :=
  match cs with
  | [] => none
  | c :: r1 =>
    if c = '=' ∨ c = '<' then
      let p := takeDigitsL r1
      if p.1 = [] then none
      else
        let f := takeFracL p.2
        match expectLit "ms".data (skipWsL f.2) with
        | none => none
        | some _ => some (decimalToRat p.1 f.1)
    else none

/-- First match of a positional matcher over a string, scanning left to
right as the JS regex engine does. -/
def scanFirst (m : List Char → Option ℚ) : List Char → Option ℚ
  | [] => none
  | c :: rest =>
    match m (c :: rest) with
    | some v => some v
    | none => scanFirst m rest

/-- Regex cascade of getNetworkLatency: on Windows the average form, then
the time form, then the generic form; elsewhere the Unix time form, then
the generic form; no match yields null. -/
def parsePingOutput (isWindows : Bool) (out : String) : Option ℚ :=
  let cs := out.data
  if isWindows then
    match scanFirst matchAvgAt cs with
    | some v => some v
    | none =>
      match scanFirst matchTimeWinAt cs with
      | some v => some v
      | none => scanFirst matchGenericAt cs
  else
    match scanFirst matchTimeUnixAt cs with
    | some v => some v
    | none => scanFirst matchGenericAt cs

/-! ## Probe helpers (utils/network.js lines 47-136) -/

/-- Value returned by the getNetworkLatency try-block: regex cascade over
the command output.  The execSync outcome is an oracle: ok with the
printed output, or error when the command times out or exits nonzero. -/
def getNetworkLatencyVal (isWindows : Bool) (execResult : Except Unit String) :
    Option ℚ :=
  match execResult with
  | .error _ => none
  | .ok out => parsePingOutput isWindows out

/-- getNetworkLatency: async, so its value arrives as a resolved promise;
the surrounding try/catch turns every execSync failure into null. -/
def getNetworkLatency (isWindows : Bool) (execResult : Except Unit String) :
    POutcome (Option ℚ) :=
  .resolved (getNetworkLatencyVal isWindows execResult)

/-- Outcome of the dns.lookup callback: error flag plus the wall-clock
time elapsed when the callback fires. -/
inductive DnsEvent where
  | failure (elapsed : ℚ)
  | success (elapsed : ℚ)
deriving DecidableEq, Repr

/-- getDnsResolutionTime resolves with null on a lookup error and with the
elapsed time otherwise; it has no rejection path. -/
def getDnsResolutionTime (ev : DnsEvent) : POutcome (Option ℚ) :=
  match ev with
  | .failure _ => .resolved none
  | .success t => .resolved (some t)

/-- First event the TCP socket fires: connect with the elapsed time, the
2-second timeout, or an error. -/
inductive SocketEvent where
  | connected (elapsed : ℚ)
  | timedOut
  | errored
deriving DecidableEq, Repr

/-- getTcpConnectionTime resolves with the connect-time on connect and
with null on timeout or error; every handler calls resolve. -/
def getTcpConnectionTime (ev : SocketEvent) : POutcome (Option ℚ) :=
  match ev with
  | .connected t => .resolved (some t)
  | .timedOut => .resolved none
  | .errored => .resolved none

/-! ## HTTP HEAD probe with bounded redirect following
(utils/network.js, performHeadRequest lines 144-211) -/

/-- What the HTTP transport does with one request: a response with a
status code and an optional Location header, a request error, or the
request timeout. -/
inductive HttpEvent where
  | response (status : ℕ) (location : Option String)
  | reqError
  | reqTimeout
deriving DecidableEq, Repr

/-- Network oracle for the HEAD probe: the response to the request issued
at a given URL on a given hop, the platform URL resolver used for
Location headers, and the elapsed wall-clock reading taken when the hop
resolving the chain answers. -/
structure Net where
  respond : String → ℕ → HttpEvent
  resolveUrl : String → String → String
  finishTime : ℕ → ℚ

/-- Resolved value of the HEAD probe: elapsed time, final status code and
final URL (absent on the synchronous-catch object of the source, which
carries no finalUrl field). -/
structure HeadResult where
  time : ℚ
  status : ℕ
  finalUrl : Option String
deriving DecidableEq, Repr

/-- Status codes the source treats as redirects. -/
def isRedirectStatus (s : ℕ) : Bool :=
  s = 301 ∨ s = 302 ∨ s = 303 ∨ s = 307 ∨ s = 308

/-- The recursive makeRequest closure: on a redirect status it first
checks the hop bound, then requires a Location header, resolves it
against the current URL and re-issues the request; on a non-redirect
response it resolves with the elapsed time, the status and the current
URL; transport errors and timeouts reject. -/
def makeRequest (net : Net) (maxRedirects : ℕ) (currentUrl : String)
    (redirectCount : ℕ) : POutcome HeadResult :=
  match net.respond currentUrl redirectCount with
  | .reqError => .rejected .requestError
  | .reqTimeout => .rejected .requestTimedOut
  | .response status loc =>
    if isRedirectStatus status then
      if maxRedirects ≤ redirectCount then
        .rejected .tooManyRedirects
      else
        match loc with
        | none => .rejected .redirectLocationMissing
        | some l =>
          makeRequest net maxRedirects (net.resolveUrl l currentUrl) (redirectCount + 1)
    else
      .resolved ⟨net.finishTime redirectCount, status, some currentUrl⟩
termination_by maxRedirects - redirectCount
decreasing_by simp_wf; omega

/-- performHeadRequest: parse the URL, then run the redirect loop from
hop 0; if the URL constructor throws, the synchronous catch returns an
object with status 0 and no finalUrl field instead of rejecting. -/
def performHeadRequest (net : Net) (urlValid : Bool) (catchTime : ℚ)
    (url : String) (maxRedirects : ℕ) : POutcome HeadResult :=
  if urlValid then makeRequest net maxRedirects url 0
  else .resolved ⟨catchTime, 0, none⟩

/-! ## measureLatency (utils/network.js lines 219-311) -/

/-- Resolved value of the axios GET fallback: the final status and the
final URL the client landed on after native redirect following. -/
structure GetResult where
  status : ℕ
  responseUrl : String
deriving DecidableEq, Repr

/-- Outcome of the axios GET call: success with the elapsed time and the
response, or failure (rejection for any reason, timeout included). -/
inductive GetOutcome where
  | success (elapsed : ℚ) (res : GetResult)
  | failure
deriving DecidableEq, Repr

/-- The optional options argument of measureLatency: absent fields keep
their defaults under the object-spread merge. -/
structure MLOptions where
  timeout : Option ℚ := none
  preferNetworkPing : Option Bool := none
  measureDns : Option Bool := none
  useHeadRequest : Option Bool := none
  maxRedirects : Option ℕ := none

/-- Effective configuration after merging the defaults with the options. -/
structure MLConfig where
  timeout : ℚ
  preferNetworkPing : Bool
  measureDns : Bool
  useHeadRequest : Bool
  maxRedirects : ℕ
deriving DecidableEq, Repr

/-- The config spread of measureLatency: defaults timeout 3000,
preferNetworkPing true, measureDns true, useHeadRequest true,
maxRedirects 5, each overridden by a present option field. -/
def mergeConfig (o : MLOptions) : MLConfig where
  timeout := o.timeout.getD 3000
  preferNetworkPing := o.preferNetworkPing.getD true
  measureDns := o.measureDns.getD true
  useHeadRequest := o.useHeadRequest.getD true
  maxRedirects := o.maxRedirects.getD 5

/-- Environment of one measureLatency call: the URL-constructor outcome,
the parsed hostname, the platform flag, the ping command outcome, the DNS
callback event, the HTTP transport oracle and the axios GET outcome. -/
structure MLEnv where
  urlValid : Bool
  hostname : String
  isWindows : Bool
  pingExec : Except Unit String
  dns : DnsEvent
  net : Net
  headCatchTime : ℚ
  get : GetOutcome

/-- The LatencyMeasurement object measureLatency resolves with.  Fields
the source leaves null or never assigns on a path are none; the catch
object of the source carries only url, error, networkPing, httpLatency
and status, so its remaining fields are none here as well. -/
structure MLResult where
  url : String
  networkPing : Option ℚ
  httpLatency : Option ℚ
  dnsTime : Option ℚ
  status : Option ℕ
  finalUrl : Option String
  bestLatency : Option ℚ
  errField : Option String
deriving DecidableEq, Repr

/-- Try-block of measureLatency: parse the URL (throwing on an invalid
one), run the ping and DNS probes in parallel, run the HEAD probe with
the GET fallback (or the plain GET when useHeadRequest is off), then
select bestLatency by JS truthiness on networkPing. -/
def measureLatencyBody (env : MLEnv) (url : String) (options : MLOptions) :
    Except JsError MLResult :=
  let config := mergeConfig options
  if env.urlValid = false then
    .error (.other "Invalid URL")
  else
    match getNetworkLatency env.isWindows env.pingExec,
        (if config.measureDns then getDnsResolutionTime env.dns
         else POutcome.resolved none) with
    | .rejected e, _ => .error e
    | .resolved _, .rejected e => .error e
    | .resolved networkPing, .resolved dnsTime =>
      let http :=
        if config.useHeadRequest then
          match performHeadRequest env.net env.urlValid env.headCatchTime url
              config.maxRedirects with
          | .resolved h => (some h.time, some h.status, h.finalUrl)
          | .rejected _ =>
            match env.get with
            | .success t res => (some t, some res.status, some res.responseUrl)
            | .failure => (none, some 0, some url)
        else
          match env.get with
          | .success t res => (some t, some res.status, some res.responseUrl)
          | .failure => (none, some 0, some url)
      let bestLatency :=
        if config.preferNetworkPing && truthyNum networkPing then networkPing
        else http.1
      .ok
        { url := url
          networkPing := networkPing
          httpLatency := http.1
          dnsTime := dnsTime
          status := http.2.1
          finalUrl := http.2.2
          bestLatency := bestLatency
          errField := none }

/-- measureLatency: the try-block result, with the catch clause turning
any thrown error into the degraded object with status 0 and null probe
fields — the function itself never rejects. -/
def measureLatency (env : MLEnv) (url : String) (options : MLOptions) :
    POutcome MLResult :=
  match measureLatencyBody env url options with
  | .ok r => .resolved r
  | .error e =>
    .resolved
      { url := url
        networkPing := none
        httpLatency := none
        dnsTime := none
        status := some 0
        finalUrl := none
        bestLatency := none
        errField := some (match e with | .other m => m | _ => "probe error") }

/-- Total HTTP unreachability of the target in a given environment: the
URL does not parse, or the GET fallback fails and (when the HEAD path is
enabled) the HEAD probe rejects. -/
def httpUnreachable (env : MLEnv) (url : String) (config : MLConfig) : Prop :=
  env.urlValid = false ∨
    (env.get = .failure ∧
      (config.useHeadRequest = true →
        isRejectedB (performHeadRequest env.net env.urlValid env.headCatchTime
          url config.maxRedirects) = true))

/-! ## Validator session: the validate-message handler
(src/connection.js, connectWebsocket message handler, validate branch)

The handler awaits measureAccurateLatency, optionally re-checks the
status with fetch when it is 0, classifies the outcome, and sends exactly
one result frame.  The outcome of the awaited probe chain, the fetch, and
the ipinfo location refresh are environment oracles; the classification,
frame construction and reporting policy are translated from the source. -/

/-- Good/Bad verdict carried by a result frame. -/
inductive VStatus where
  | good
  | bad
deriving DecidableEq, Repr

/-- The validate result frame the session sends back to the hub. -/
structure ResultFrame where
  callbackId : String
  status : VStatus
  latency : ℚ
  validatorId : Option String
  signedMessage : String
  location : String
  ipAddress : String
deriving DecidableEq, Repr

/-- Resolved value of measureAccurateLatency: a time and a status code
(0 when the status check failed). -/
structure PingMeasure where
  time : ℚ
  status : ℕ
deriving DecidableEq, Repr

/-- Environment of one validate-request handling: the outcome the awaited
probe settles with (the source probe always resolves; the rejected case
covers any throw inside the try-block before classification), the fetch
status re-check, the ipinfo location refresh, and the session state. -/
structure ValidateEnv where
  probe : POutcome PingMeasure
  fetchOutcome : POutcome ℕ
  geo : POutcome (String × String)
  validatorId : Option String
  location : String
  ipAddress : String
  signature : String

/-- Location string used on Bad outcomes: the handler re-resolves it
best-effort from ipinfo, keeping the stale one when that fails. -/
def refreshedLocation (env : ValidateEnv) : String :=
  match env.geo with
  | .resolved cr => cr.1 ++ ", " ++ cr.2
  | .rejected _ => env.location

/-- Status the classification runs on: when the probe reports 0 the
handler re-checks with a GET fetch, keeping 0 if the fetch also fails;
otherwise the probe status stands.  (The source also compares the status
against the string "unknown", which a numeric status never equals.) -/
def effectiveStatus (env : ValidateEnv) (pingResult : PingMeasure) : ℕ :=
  if pingResult.status = 0 then
    match env.fetchOutcome with
    | .resolved s => s
    | .rejected _ => 0
  else pingResult.status

/-- Try-block of the validate handler: classify as Bad exactly when the
status lies in [400,600) or is 0, reporting latency 0 and a refreshed
location; otherwise report the measured latency as Good. -/
def handleValidateBody (env : ValidateEnv) (callbackId : String) :
    Except JsError ResultFrame :=
  match env.probe with
  | .rejected e => .error e
  | .resolved pingResult =>
    let responseStatus := effectiveStatus env pingResult
    let latency := pingResult.time
    if (400 ≤ responseStatus ∧ responseStatus < 600) ∨ responseStatus = 0 then
      .ok
        { callbackId := callbackId
          status := .bad
          latency := 0
          validatorId := env.validatorId
          signedMessage := env.signature
          location := refreshedLocation env
          ipAddress := env.ipAddress }
    else
      .ok
        { callbackId := callbackId
          status := .good
          latency := latency
          validatorId := env.validatorId
          signedMessage := env.signature
          location := env.location
          ipAddress := env.ipAddress }

/-- Frames the handler sends for one validate request: the try-block
frame, or the catch-clause Bad frame with latency 0 and a refreshed
location when the try-block throws. -/
def handleValidate (env : ValidateEnv) (callbackId : String) :
    List ResultFrame :=
  match handleValidateBody env callbackId with
  | .ok f => [f]
  | .error _ =>
    [{ callbackId := callbackId
       status := .bad
       latency := 0
       validatorId := env.validatorId
       signedMessage := env.signature
       location := refreshedLocation env
       ipAddress := env.ipAddress }]

/-! ## Hub registry (hub server source, wss connection handler)

The registry is the validators Map, modelled as an insertion-ordered
association list with first-occurrence lookup and in-place update, which
is exactly the JS Map behaviour. -/

/-- ValidatorRecord stored by the hub. -/
structure VRecord where
  publicKey : String
  location : String
  connectionTime : ℕ
  lastActive : ℕ
  ip : String
  clientIp : String
deriving DecidableEq, Repr

/-- The hub validators Map. -/
abbrev Registry := List (String × VRecord)

/-- Map.get: first entry with the key. -/
def mapGet : Registry → String → Option VRecord
  | [], _ => none
  | e :: rest, k => if e.1 = k then some e.2 else mapGet rest k

/-- Map.set: update the entry in place when the key exists, append
otherwise. -/
def mapSet : Registry → String → VRecord → Registry
  | [], k, v => [(k, v)]
  | e :: rest, k, v => if e.1 = k then (k, v) :: rest else e :: mapSet rest k v

/-- Payload of a signup frame as the hub reads it. -/
structure SignupData where
  ip : Option String
  publicKey : String
  location : Option String
deriving DecidableEq, Repr

/-- Signup branch of the hub message handler: mint the id
validator-suffix from one bounded random draw, store the record (the ip
falls back to the connection address, the location to "Unknown"), and
reply with the id.  rand models Math.floor(Math.random() * 10000). -/
def handleSignup (validators : Registry) (rand : ℕ) (clientIp : String)
    (now : ℕ) (d : SignupData) : Registry × String :=
  let validatorId := "validator-" ++ toString (rand % 10000)
  (mapSet validators validatorId
    { publicKey := d.publicKey
      location := jsOrS d.location "Unknown"
      connectionTime := now
      lastActive := now
      ip := jsOrS d.ip clientIp
      clientIp := clientIp }, validatorId)

/-- Payload of a validate report as the hub reads it. -/
structure ReportData where
  validatorId : String
  ipAddress : Option String
deriving DecidableEq, Repr

/-- Validate branch of the hub message handler: when a record exists for
the reported id, refresh its lastActive and its ip (keeping the old ip
when none is provided); otherwise only the log line runs and the map is
untouched. -/
def handleReport (validators : Registry) (now : ℕ) (d : ReportData) :
    Registry :=
  match mapGet validators d.validatorId with
  | none => validators
  | some info =>
    mapSet validators d.validatorId
      { info with lastActive := now, ip := jsOrS d.ipAddress info.ip }

/-- Close handler of the hub: walk the map in insertion order and delete
the first record whose stored ip equals the remote address of the
closing connection, then stop. -/
def handleClose : Registry → String → Registry
  | [], _ => []
  | e :: rest, clientIp =>
    if e.2.ip = clientIp then rest else e :: handleClose rest clientIp

/-! ## Redirect-chain descriptions used to state the HEAD-probe claims -/

/-- URL of the i-th hop of the request chain started at url with hop
counter c, following the Location resolution of the source. -/
def hopUrlFrom (net : Net) : String → ℕ → ℕ → String
  | url, _, 0 => url
  | url, c, i + 1 =>
    match net.respond url c with
    | .response s (some l) =>
      if isRedirectStatus s then hopUrlFrom net (net.resolveUrl l url) (c + 1) i
      else url
    | _ => url

/-- The transport answers the first k hops from (url, c) with redirect
statuses that carry a Location header. -/
def chainFrom (net : Net) (url : String) (c k : ℕ) : Prop :=
  ∀ i, i < k →
    ∃ s l, net.respond (hopUrlFrom net url c i) (c + i) = .response s (some l)
      ∧ isRedirectStatus s = true

/-! ## Concrete environments used by witnesses and counterexamples -/

/-- Transport oracle that fails every request. -/
def netTrivial : Net where
  respond := fun _ _ => .reqError
  resolveUrl := fun l _ => l
  finishTime := fun _ => 0

/-- Measurement environment whose URL does not parse. -/
def env0 : MLEnv where
  urlValid := false
  hostname := ""
  isWindows := false
  pingExec := .error ()
  dns := .failure 0
  net := netTrivial
  headCatchTime := 0
  get := .failure

/-- Transport oracle that answers every request with a plain 200. -/
def net5 : Net where
  respond := fun _ _ => .response 200 none
  resolveUrl := fun l _ => l
  finishTime := fun _ => 42

/-- Environment where the system ping reports a round-trip time of 0 ms
and the HEAD probe succeeds with status 200 after 42 ms. -/
def env5 : MLEnv where
  urlValid := true
  hostname := "x"
  isWindows := false
  pingExec := .ok "time=0 ms"
  dns := .failure 1
  net := net5
  headCatchTime := 0
  get := .failure

/-- Measurement produced in env5. -/
def c5res : MLResult where
  url := "http://x/"
  networkPing := some 0
  httpLatency := some 42
  dnsTime := none
  status := some 200
  finalUrl := some "http://x/"
  bestLatency := some 42
  errField := none

/-- Environment where the HEAD probe errors out and the GET fallback
succeeds with status 200 after 77 ms. -/
def env6 : MLEnv where
  urlValid := true
  hostname := "x"
  isWindows := false
  pingExec := .error ()
  dns := .failure 1
  net := netTrivial
  headCatchTime := 0
  get := .success 77 ⟨200, "http://x/final"⟩

/-- Measurement produced in env6. -/
def c6res : MLResult where
  url := "http://x/"
  networkPing := none
  httpLatency := some 77
  dnsTime := none
  status := some 200
  finalUrl := some "http://x/final"
  bestLatency := some 77
  errField := none

/-- Transport oracle with one redirect hop: the start URL answers 301
with Location b, everything else answers 200. -/
def netW : Net where
  respond := fun u i =>
    if u = "http://a/" ∧ i = 0 then .response 301 (some "b")
    else .response 200 none
  resolveUrl := fun l u => u ++ l
  finishTime := fun _ => 20

/-- Session environment where the probe reports HTTP status 999. -/
def env2 : ValidateEnv where
  probe := .resolved ⟨5, 999⟩
  fetchOutcome := .rejected .requestError
  geo := .rejected .requestError
  validatorId := some "validator-1"
  location := "Unknown"
  ipAddress := "1.2.3.4"
  signature := "sig"

/-- Session environment where the probe reports HTTP status 503. -/
def env3 : ValidateEnv where
  probe := .resolved ⟨12, 503⟩
  fetchOutcome := .rejected .requestError
  geo := .resolved ("City", "Region")
  validatorId := some "validator-1"
  location := "Unknown"
  ipAddress := "1.2.3.4"
  signature := "sig"

/-- Signup payload of the first registering validator. -/
def sdA : SignupData where
  ip := none
  publicKey := "pkA"
  location := some "locA"

/-- Signup payload of the second registering validator. -/
def sdB : SignupData where
  ip := none
  publicKey := "pkB"
  location := some "locB"

/-- Registry after two validators register over distinct connections that
share the remote address 9.9.9.9 (random draws 1 and 2). -/
def c8Reg : Registry :=
  (handleSignup (handleSignup [] 1 "9.9.9.9" 0 sdA).1 2 "9.9.9.9" 5 sdB).1

/-- Measurement produced in env0: the catch object of measureLatency. -/
def c0res : MLResult where
  url := "u"
  networkPing := none
  httpLatency := none
  dnsTime := none
  status := some 0
  finalUrl := none
  bestLatency := none
  errField := some "Invalid URL"

/-- A stored validator record used by the report-handler witness. -/
def recW : VRecord where
  publicKey := "pk"
  location := "loc"
  connectionTime := 3
  lastActive := 4
  ip := "1.1.1.1"
  clientIp := "1.1.1.1"

/-- A report payload used by the report-handler witness. -/
def dW : ReportData where
  validatorId := "validator-9"
  ipAddress := some "7.7.7.7"

/-! ## Helper lemmas -/

theorem mapGet_mapSet_self (m : Registry) (k : String) (v : VRecord) :
    mapGet (mapSet m k v) k = some v := by
  induction m with
  | nil => simp [mapSet, mapGet]
  | cons e rest ih =>
    by_cases h : e.1 = k
    · simp [mapSet, mapGet, h]
    · simp [mapSet, mapGet, h, ih]

theorem mapGet_mapSet_other (m : Registry) (k k2 : String) (v : VRecord)
    (hne : k2 ≠ k) : mapGet (mapSet m k v) k2 = mapGet m k2 := by
  have hne2 : k ≠ k2 := Ne.symm hne
  induction m with
  | nil => simp [mapSet, mapGet, hne2]
  | cons e rest ih =>
    by_cases h : e.1 = k
    · subst h
      simp [mapSet, mapGet, hne2]
    · simp [mapSet, mapGet, h, ih]

theorem dnsBranch_not_rejected (b : Bool) (d : DnsEvent) (e : JsError) :
    (if b then getDnsResolutionTime d else POutcome.resolved none)
      ≠ POutcome.rejected e := by
  cases b <;> cases d <;> simp [getDnsResolutionTime]

/-! ## Claims about the probe helpers and the hub registry -/

/-- C10: the exported probe helpers are total at their public interface:
for every environment event, getNetworkLatency, getDnsResolutionTime and
getTcpConnectionTime resolve (never reject) with a numeric elapsed time
or null, and each failure or timeout event yields null. -/
theorem C10_probe_helpers_total (isWindows : Bool) (er : Except Unit String)
    (dev : DnsEvent) (sev : SocketEvent) (t : ℚ) :
    (∃ v, getNetworkLatency isWindows er = .resolved v)
    ∧ (∃ v, getDnsResolutionTime dev = .resolved v)
    ∧ (∃ v, getTcpConnectionTime sev = .resolved v)
    ∧ getNetworkLatency isWindows (.error ()) = .resolved none
    ∧ getDnsResolutionTime (.failure t) = .resolved none
    ∧ getTcpConnectionTime .timedOut = .resolved none
    ∧ getTcpConnectionTime .errored = .resolved none := by
  refine ⟨⟨_, rfl⟩, ?_, ?_, rfl, rfl, rfl, rfl⟩
  · cases dev <;> exact ⟨_, rfl⟩
  · cases sev <;> exact ⟨_, rfl⟩

/-- C3: every validate request handled by the session produces exactly
one result frame, and every frame classified Bad carries latency 0 even
when a latency measurement was obtained. -/
theorem C3_exactly_one_frame_bad_latency_zero (env : ValidateEnv)
    (callbackId : String) :
    (handleValidate env callbackId).length = 1
    ∧ ∀ f ∈ handleValidate env callbackId, f.status = .bad → f.latency = 0 := by
  unfold handleValidate handleValidateBody
  cases env.probe with
  | rejected e => simp
  | resolved p =>
    by_cases h : (400 ≤ effectiveStatus env p ∧ effectiveStatus env p < 600)
        ∨ effectiveStatus env p = 0
    · simp [h]
    · simp [h]

/-- Witness for C3 at a concrete environment. -/
theorem C3_witness : (handleValidate env3 "cb").length = 1 :=
  (C3_exactly_one_frame_bad_latency_zero env3 "cb").1

/-- C2 counterexample: with an obtained HTTP status of 999 the session
classifies the outcome Good, although 999 lies outside [200, 399]. -/
theorem C2_counterexample :
    (handleValidate env2 "cb").map ResultFrame.status = [VStatus.good]
    ∧ ¬(200 ≤ effectiveStatus env2 ⟨5, 999⟩
        ∧ effectiveStatus env2 ⟨5, 999⟩ ≤ 399) := by
  decide

/-- C2 as amended: the session classifies an outcome Good iff the
try-block ran to classification and the effective status is neither in
[400, 600) nor 0; statuses below 200 or of 600 and above are therefore
also classified Good. -/
theorem C2_classification (env : ValidateEnv) (callbackId : String) :
    (∀ p, env.probe = .resolved p →
      ∃ f, handleValidate env callbackId = [f]
        ∧ (f.status = .good ↔
            ¬((400 ≤ effectiveStatus env p ∧ effectiveStatus env p < 600)
              ∨ effectiveStatus env p = 0)))
    ∧ (∀ e, env.probe = .rejected e →
        ∃ f, handleValidate env callbackId = [f] ∧ f.status = .bad) := by
  constructor
  · intro p hp
    by_cases h : (400 ≤ effectiveStatus env p ∧ effectiveStatus env p < 600)
        ∨ effectiveStatus env p = 0
    · have hval : handleValidate env callbackId =
          [{ callbackId := callbackId
             status := VStatus.bad
             latency := 0
             validatorId := env.validatorId
             signedMessage := env.signature
             location := refreshedLocation env
             ipAddress := env.ipAddress }] := by
        unfold handleValidate handleValidateBody
        rw [hp]
        simp [h]
      refine ⟨_, hval, ?_⟩
      simp [h]
    · have hval : handleValidate env callbackId =
          [{ callbackId := callbackId
             status := VStatus.good
             latency := p.time
             validatorId := env.validatorId
             signedMessage := env.signature
             location := env.location
             ipAddress := env.ipAddress }] := by
        unfold handleValidate handleValidateBody
        rw [hp]
        simp [h]
      refine ⟨_, hval, ?_⟩
      simp [h]
  · intro e he
    unfold handleValidate handleValidateBody
    rw [he]
    exact ⟨_, rfl, rfl⟩

/-- Witness for C2 at a concrete environment. -/
theorem C2_classification_witness :
    ∃ f, handleValidate env2 "cb" = [f]
      ∧ (f.status = .good ↔
          ¬((400 ≤ effectiveStatus env2 ⟨5, 999⟩
              ∧ effectiveStatus env2 ⟨5, 999⟩ < 600)
            ∨ effectiveStatus env2 ⟨5, 999⟩ = 0)) :=
  (C2_classification env2 "cb").1 ⟨5, 999⟩ rfl

/-- C7: the hub identity allocator is a bounded random suffix; under a
repeated draw two registrations receive the same validatorId and the
second record overwrites the first, so uniqueness among live records
fails. -/
theorem C7_collision_overwrites :
    (handleSignup [] 7 "1.1.1.1" 0 sdA).2
      = (handleSignup (handleSignup [] 7 "1.1.1.1" 0 sdA).1 7 "2.2.2.2" 1 sdB).2
    ∧ ((handleSignup (handleSignup [] 7 "1.1.1.1" 0 sdA).1 7 "2.2.2.2" 1 sdB).1).length
      = 1 := by
  decide

/-- C8: the hub close handler correlates by stored IP address; when two
live records share the address, closing the second connection evicts the
first record (validator-1) while the closing connection's own record
(validator-2) survives. -/
theorem C8_evicts_wrong_record :
    mapGet c8Reg "validator-1" ≠ none
    ∧ mapGet (handleClose c8Reg "9.9.9.9") "validator-1" = none
    ∧ mapGet (handleClose c8Reg "9.9.9.9") "validator-2"
      = mapGet c8Reg "validator-2" := by
  decide

/-- C9: a validation report updates exactly the reported record's
lastActive and ip fields, keeping its publicKey, location, connectionTime
and stored connection address, and leaves every other key of the map as
it was; a report for an unknown validatorId leaves the map unchanged. -/
theorem C9_report_frame_conditions (st : Registry) (now : ℕ) (d : ReportData) :
    (mapGet st d.validatorId = none → handleReport st now d = st)
    ∧ (∀ info, mapGet st d.validatorId = some info →
        mapGet (handleReport st now d) d.validatorId
          = some { info with lastActive := now, ip := jsOrS d.ipAddress info.ip }
        ∧ ∀ k, k ≠ d.validatorId →
            mapGet (handleReport st now d) k = mapGet st k) := by
  constructor
  · intro h
    unfold handleReport
    rw [h]
  · intro info h
    unfold handleReport
    rw [h]
    exact ⟨mapGet_mapSet_self st d.validatorId _,
      fun k hk => mapGet_mapSet_other st d.validatorId k _ hk⟩

/-- Witness for C9 at a concrete registry. -/
theorem C9_report_witness :
    mapGet (handleReport [("validator-9", recW)] 99 dW) "validator-9"
      = some { recW with lastActive := 99, ip := jsOrS dW.ipAddress recW.ip } :=
  ((C9_report_frame_conditions [("validator-9", recW)] 99 dW).2 recW
    (by decide)).1

/-! ## Claims about measureLatency -/

/-- C1: for every URL and environment, measureLatency resolves with a
measurement object and never rejects; the status field is always set,
and it is 0 when the URL does not parse or every HTTP probe of the
environment fails. -/
theorem C1_measureLatency_never_raises (env : MLEnv) (url : String)
    (options : MLOptions) :
    ∃ r, measureLatency env url options = .resolved r
      ∧ (∃ s, r.status = some s)
      ∧ (httpUnreachable env url (mergeConfig options) → r.status = some 0) := by
  unfold measureLatency measureLatencyBody
  by_cases hv : env.urlValid = false
  · rw [if_pos hv]
    exact ⟨_, rfl, ⟨0, rfl⟩, fun _ => rfl⟩
  · rw [if_neg hv]
    cases hdns : (if (mergeConfig options).measureDns then getDnsResolutionTime env.dns
        else POutcome.resolved none) with
    | rejected de => exact absurd hdns (dnsBranch_not_rejected _ _ _)
    | resolved dv =>
      simp only [getNetworkLatency, hdns]
      by_cases hu : (mergeConfig options).useHeadRequest = true
      · simp only [hu, if_true]
        cases hh : performHeadRequest env.net env.urlValid env.headCatchTime url
            (mergeConfig options).maxRedirects with
        | resolved h =>
          refine ⟨_, rfl, ⟨h.status, rfl⟩, ?_⟩
          intro hun
          rcases hun with hl | ⟨hget, hrej⟩
          · exact absurd hl hv
          · have := hrej hu
            rw [hh] at this
            simp [isRejectedB] at this
        | rejected e =>
          cases hg : env.get with
          | success t res =>
            refine ⟨_, rfl, ⟨res.status, rfl⟩, ?_⟩
            intro hun
            rcases hun with hl | ⟨hget, hrej⟩
            · exact absurd hl hv
            · rw [hg] at hget
              exact absurd hget (by simp)
          | failure =>
            exact ⟨_, rfl, ⟨0, rfl⟩, fun _ => rfl⟩
      · simp only [Bool.not_eq_true] at hu
        simp only [hu, Bool.false_eq_true, if_false]
        cases hg : env.get with
        | success t res =>
          refine ⟨_, rfl, ⟨res.status, rfl⟩, ?_⟩
          intro hun
          rcases hun with hl | ⟨hget, hrej⟩
          · exact absurd hl hv
          · rw [hg] at hget
            exact absurd hget (by simp)
        | failure =>
          exact ⟨_, rfl, ⟨0, rfl⟩, fun _ => rfl⟩

/-- Witness for C1 at an environment whose URL does not parse. -/
theorem C1_witness :
    ∃ r, measureLatency env0 "u" {} = POutcome.resolved r
      ∧ r.status = some 0 := by
  obtain ⟨r, h1, _, h3⟩ := C1_measureLatency_never_raises env0 "u" {}
  exact ⟨r, h1, h3 (Or.inl rfl)⟩

/-- C5 counterexample: with preferNetworkPing set and a measured
networkPing of exactly 0 ms, the source selects httpLatency, because its
selection tests JS truthiness of networkPing and 0 is falsy. -/
theorem C5_counterexample :
    measureLatency env5 "http://x/" {} = .resolved c5res
    ∧ c5res.networkPing = some 0
    ∧ (mergeConfig {}).preferNetworkPing = true
    ∧ c5res.bestLatency ≠ c5res.networkPing := by
  refine ⟨?_, by decide, by decide, by decide⟩
  have h1 : performHeadRequest env5.net env5.urlValid env5.headCatchTime "http://x/"
      (mergeConfig ({} : MLOptions)).maxRedirects
      = POutcome.resolved ⟨42, 200, some "http://x/"⟩ := by
    simp [performHeadRequest, env5, net5, mergeConfig, makeRequest, isRedirectStatus]
  simp only [measureLatency, measureLatencyBody, h1]
  decide

/-- C5 as amended: bestLatency equals networkPing whenever
preferNetworkPing is set and networkPing is non-null and nonzero, and
equals httpLatency otherwise; in particular a measured networkPing of 0
selects httpLatency. -/
theorem C5_best_latency_selection (env : MLEnv) (url : String)
    (options : MLOptions) (r : MLResult)
    (h : measureLatency env url options = .resolved r) :
    r.bestLatency =
      if (mergeConfig options).preferNetworkPing && truthyNum r.networkPing
      then r.networkPing else r.httpLatency := by
  unfold measureLatency measureLatencyBody at h
  by_cases hv : env.urlValid = false
  · rw [if_pos hv] at h
    injection h with h
    subst h
    simp [truthyNum]
  · rw [if_neg hv] at h
    cases hdns : (if (mergeConfig options).measureDns then getDnsResolutionTime env.dns
        else POutcome.resolved none) with
    | rejected de => exact absurd hdns (dnsBranch_not_rejected _ _ _)
    | resolved dv =>
      rw [hdns] at h
      simp only [getNetworkLatency] at h
      by_cases hu : (mergeConfig options).useHeadRequest = true
      · simp only [hu, if_true] at h
        cases hh : performHeadRequest env.net env.urlValid env.headCatchTime url
            (mergeConfig options).maxRedirects with
        | resolved hd =>
          rw [hh] at h
          injection h with h
          subst h
          rfl
        | rejected e =>
          rw [hh] at h
          cases hg : env.get with
          | success t res =>
            rw [hg] at h
            injection h with h
            subst h
            rfl
          | failure =>
            rw [hg] at h
            injection h with h
            subst h
            rfl
      · simp only [Bool.not_eq_true] at hu
        simp only [hu, Bool.false_eq_true, if_false] at h
        cases hg : env.get with
        | success t res =>
          rw [hg] at h
          injection h with h
          subst h
          rfl
        | failure =>
          rw [hg] at h
          injection h with h
          subst h
          rfl

/-- Witness for the amended C5 at a concrete environment. -/
theorem C5_selection_witness :
    c0res.bestLatency =
      if (mergeConfig {}).preferNetworkPing && truthyNum c0res.networkPing
      then c0res.networkPing else c0res.httpLatency :=
  C5_best_latency_selection env0 "u" {} c0res (by decide)

/-- C6 counterexample: when the HEAD probe fails outright and the GET
fallback succeeds after 77 ms, the source stores 77 in httpLatency, so
the fallback does not leave the field unset. -/
theorem C6_counterexample :
    measureLatency env6 "http://x/" {} = .resolved c6res
    ∧ c6res.httpLatency = some 77
    ∧ ¬c6res.httpLatency = none := by
  refine ⟨?_, by decide, by decide⟩
  have h1 : performHeadRequest env6.net env6.urlValid env6.headCatchTime "http://x/"
      (mergeConfig ({} : MLOptions)).maxRedirects
      = POutcome.rejected .requestError := by
    simp [performHeadRequest, env6, netTrivial, mergeConfig, makeRequest]
  simp only [measureLatency, measureLatencyBody, h1]
  decide

/-- C6 as amended: when the HEAD path fails outright, the GET fallback is
issued to obtain a status code and its elapsed time is recorded as the
measurement's httpLatency, together with the final URL the GET landed
on. -/
theorem C6_fallback_records_timing (env : MLEnv) (url : String)
    (options : MLOptions) (t : ℚ) (res : GetResult) (e : JsError)
    (hv : env.urlValid = true)
    (hu : (mergeConfig options).useHeadRequest = true)
    (hh : performHeadRequest env.net env.urlValid env.headCatchTime url
      (mergeConfig options).maxRedirects = .rejected e)
    (hg : env.get = .success t res) :
    ∃ r, measureLatency env url options = .resolved r
      ∧ r.httpLatency = some t
      ∧ r.status = some res.status
      ∧ r.finalUrl = some res.responseUrl := by
  unfold measureLatency measureLatencyBody
  rw [if_neg (by simp [hv])]
  cases hdns : (if (mergeConfig options).measureDns then getDnsResolutionTime env.dns
      else POutcome.resolved none) with
  | rejected de => exact absurd hdns (dnsBranch_not_rejected _ _ _)
  | resolved dv =>
    simp only [getNetworkLatency, hdns, hu, if_true, hh, hg]
    exact ⟨_, rfl, rfl, rfl, rfl⟩

/-- Witness for the amended C6 at a concrete environment. -/
theorem C6_fallback_witness :
    ∃ r, measureLatency env6 "http://x/" {} = POutcome.resolved r
      ∧ r.httpLatency = some 77
      ∧ r.status = some 200
      ∧ r.finalUrl = some "http://x/final" := by
  have hh : performHeadRequest env6.net env6.urlValid env6.headCatchTime "http://x/"
      (mergeConfig ({} : MLOptions)).maxRedirects
      = POutcome.rejected .requestError := by
    simp [performHeadRequest, env6, netTrivial, mergeConfig, makeRequest]
  exact C6_fallback_records_timing env6 "http://x/" {} 77 ⟨200, "http://x/final"⟩
    .requestError rfl rfl hh rfl

/-! ## Redirect-chain lemmas for the HEAD probe -/

theorem hopUrlFrom_succ (net : Net) (url : String) (c i : ℕ) (s : ℕ) (l : String)
    (h : net.respond url c = .response s (some l)) (hr : isRedirectStatus s = true) :
    hopUrlFrom net url c (i + 1) = hopUrlFrom net (net.resolveUrl l url) (c + 1) i := by
  simp [hopUrlFrom, h, hr]

theorem chainFrom_shift (net : Net) (url : String) (c k : ℕ) (s : ℕ) (l : String)
    (h : net.respond url c = .response s (some l)) (hr : isRedirectStatus s = true)
    (hc : chainFrom net url c (k + 1)) :
    chainFrom net (net.resolveUrl l url) (c + 1) k := by
  intro i hi
  have h2 := hc (i + 1) (by omega)
  rw [hopUrlFrom_succ net url c i s l h hr] at h2
  have heq : c + (i + 1) = c + 1 + i := by omega
  rw [heq] at h2
  exact h2

theorem makeRequest_chain_resolved (net : Net) (maxR : ℕ) :
    ∀ k c url s loc, c + k ≤ maxR → chainFrom net url c k →
      net.respond (hopUrlFrom net url c k) (c + k) = .response s loc →
      isRedirectStatus s = false →
      makeRequest net maxR url c
        = .resolved ⟨net.finishTime (c + k), s, some (hopUrlFrom net url c k)⟩ := by
  intro k
  induction k with
  | zero =>
    intro c url s loc hle hch hresp hs
    simp only [hopUrlFrom, Nat.add_zero] at hresp ⊢
    rw [makeRequest, hresp]
    simp [hs]
  | succ k ih =>
    intro c url s loc hle hch hresp hs
    obtain ⟨s0, l0, h0, hr0⟩ := hch 0 (by omega)
    simp only [hopUrlFrom, Nat.add_zero] at h0
    rw [makeRequest, h0]
    have hclt : ¬maxR ≤ c := by omega
    have heq : c + (k + 1) = c + 1 + k := by omega
    rw [hopUrlFrom_succ net url c k s0 l0 h0 hr0, heq] at hresp
    have h2 := ih (c + 1) (net.resolveUrl l0 url) s loc (by omega)
      (chainFrom_shift net url c k s0 l0 h0 hr0 hch) hresp hs
    rw [hopUrlFrom_succ net url c k s0 l0 h0 hr0, heq]
    simpa [hr0, hclt] using h2

theorem makeRequest_chain_rejects (net : Net) (maxR : ℕ) :
    ∀ k c url, c + k = maxR → chainFrom net url c (k + 1) →
      makeRequest net maxR url c = .rejected .tooManyRedirects := by
  intro k
  induction k with
  | zero =>
    intro c url hceq hch
    obtain ⟨s0, l0, h0, hr0⟩ := hch 0 (by omega)
    simp only [hopUrlFrom, Nat.add_zero] at h0
    rw [makeRequest, h0]
    have hb : maxR ≤ c := by omega
    simp [hr0, hb]
  | succ k ih =>
    intro c url hceq hch
    obtain ⟨s0, l0, h0, hr0⟩ := hch 0 (by omega)
    simp only [hopUrlFrom, Nat.add_zero] at h0
    rw [makeRequest, h0]
    have hclt : ¬maxR ≤ c := by omega
    have h2 := ih (c + 1) (net.resolveUrl l0 url) (by omega)
      (chainFrom_shift net url c (k + 1) s0 l0 h0 hr0 hch)
    simpa [hr0, hclt] using h2

theorem makeRequest_chain_missing (net : Net) (maxR : ℕ) :
    ∀ k c url s, c + k ≤ maxR → chainFrom net url c k →
      net.respond (hopUrlFrom net url c k) (c + k) = .response s none →
      isRedirectStatus s = true →
      ∃ e, makeRequest net maxR url c = .rejected e := by
  intro k
  induction k with
  | zero =>
    intro c url s hle hch hresp hs
    simp only [hopUrlFrom, Nat.add_zero] at hresp
    rw [makeRequest, hresp]
    by_cases hb : maxR ≤ c
    · exact ⟨.tooManyRedirects, by simp [hs, hb]⟩
    · exact ⟨.redirectLocationMissing, by simp [hs, hb]⟩
  | succ k ih =>
    intro c url s hle hch hresp hs
    obtain ⟨s0, l0, h0, hr0⟩ := hch 0 (by omega)
    simp only [hopUrlFrom, Nat.add_zero] at h0
    rw [makeRequest, h0]
    have hclt : ¬maxR ≤ c := by omega
    have heq : c + (k + 1) = c + 1 + k := by omega
    rw [hopUrlFrom_succ net url c k s0 l0 h0 hr0, heq] at hresp
    obtain ⟨e, he⟩ := ih (c + 1) (net.resolveUrl l0 url) s (by omega)
      (chainFrom_shift net url c k s0 l0 h0 hr0 hch) hresp hs
    exact ⟨e, by simpa [hr0, hclt] using he⟩

/-- C4: a HEAD redirect chain of length at most maxRedirects resolves to
the final hop's status and URL, each Location resolved against the
current URL; a chain of length maxRedirects + 1 rejects with the local
too-many-redirects error, a 3xx without Location makes the HEAD path
reject as well, and any HEAD rejection makes measureLatency take the GET
fallback instead of propagating the error. -/
theorem C4_redirect_chain_behaviour (net : Net) (url : String) (maxR : ℕ)
    (ct : ℚ) (env : MLEnv) (options : MLOptions) :
    (∀ k s loc, k ≤ maxR → chainFrom net url 0 k →
      net.respond (hopUrlFrom net url 0 k) k = .response s loc →
      isRedirectStatus s = false →
      performHeadRequest net true ct url maxR
        = .resolved ⟨net.finishTime k, s, some (hopUrlFrom net url 0 k)⟩)
    ∧ (chainFrom net url 0 (maxR + 1) →
      performHeadRequest net true ct url maxR = .rejected .tooManyRedirects)
    ∧ (∀ k s, k ≤ maxR → chainFrom net url 0 k →
      net.respond (hopUrlFrom net url 0 k) k = .response s none →
      isRedirectStatus s = true →
      ∃ e, performHeadRequest net true ct url maxR = .rejected e)
    ∧ (∀ t res e, env.net = net → env.urlValid = true → env.headCatchTime = ct →
      (mergeConfig options).useHeadRequest = true →
      (mergeConfig options).maxRedirects = maxR →
      performHeadRequest net true ct url maxR = .rejected e →
      env.get = .success t res →
      ∃ r, measureLatency env url options = .resolved r
        ∧ r.status = some res.status ∧ r.finalUrl = some res.responseUrl) := by
  refine ⟨?_, ?_, ?_, ?_⟩
  · intro k s loc hk hch hresp hs
    have h2 := makeRequest_chain_resolved net maxR k 0 url s loc (by omega) hch
      (by simpa using hresp) hs
    simpa [performHeadRequest] using h2
  · intro hch
    have h2 := makeRequest_chain_rejects net maxR maxR 0 url (by omega) hch
    simpa [performHeadRequest] using h2
  · intro k s hk hch hresp hs
    obtain ⟨e, he⟩ := makeRequest_chain_missing net maxR k 0 url s (by omega) hch
      (by simpa using hresp) hs
    exact ⟨e, by simpa [performHeadRequest] using he⟩
  · intro t res e hnet hv hct hu hmax hh hg
    unfold measureLatency measureLatencyBody
    rw [if_neg (by simp [hv])]
    cases hdns : (if (mergeConfig options).measureDns then getDnsResolutionTime env.dns
        else POutcome.resolved none) with
    | rejected de => exact absurd hdns (dnsBranch_not_rejected _ _ _)
    | resolved dv =>
      simp only [getNetworkLatency, hdns, hu, if_true, hnet, hv, hct, hmax, hh, hg]
      exact ⟨_, rfl, rfl, rfl⟩

/-- Witness for C4: a concrete one-redirect chain resolving to the final
hop's status 200 and final URL. -/
theorem C4_redirect_witness :
    performHeadRequest netW true 0 "http://a/" 5
      = POutcome.resolved ⟨20, 200, some "http://a/b"⟩ := by
  have hch : chainFrom netW "http://a/" 0 1 := by
    intro i hi
    have hi0 : i = 0 := by omega
    subst hi0
    exact ⟨301, "b", by decide, by decide⟩
  exact (C4_redirect_chain_behaviour netW "http://a/" 5 0 env0 {}).1 1 200 none
    (by omega) hch (by decide) (by decide)

end DPin
